import Mathlib

/-!
# control-tower: teardown core

A shallow embedding of `iaas/aws_client.go` and `bosh/gcp_delete.go`.

Conventions of the embedding:

* a Go `string` is its byte sequence (`len` counts bytes);
* a Go `error` value is `Option GoError`, `none` being `nil`;
* a Go slice that may be `nil` is `Option (List _)`, `none` being `nil`;
* a slice index that is out of range and the dereference of a nil pointer
  are run-time panics and are modelled as such; the fields of the instance
  listing that `DeleteVMsInVPC` reads through pointers (`InstanceId`, `Ebs`,
  `VolumeId`) are optional, `none` being `nil`; the pointer-typed fields of
  the other response records are modelled by their pointees;
* remote collaborators are functions over an arbitrary world state `σ`, and
  every function that calls one records the call in a log.
-/

namespace ControlTower

/-! ## Strings, errors, outcomes -/

/-- A Go string: an immutable sequence of bytes. -/
abbrev GoString := List UInt8

/-- The bytes of a string literal (its UTF-8 encoding). -/
def utf8 (s : String) : GoString := s.toList.flatMap String.utf8EncodeChar

/-- A non-nil Go `error`, identified by its message. -/
structure GoError where
  msg : GoString
deriving DecidableEq, Repr

/-- The outcome of running a Go function: it returns, or it panics. -/
inductive Run (α : Type) where
  | ret (a : α)
  | panic (msg : String)
deriving DecidableEq, Repr

/-! ## `iaas/aws_client.go`: CheckForWhitelistedIP -/

/-- `ec2.IpRange`. -/
structure IpRange where
  CidrIp : GoString
deriving DecidableEq, Repr

/-- `ec2.IpPermission`. -/
structure IpPermission where
  FromPort : Int
  IpRanges : List IpRange
deriving DecidableEq, Repr

/-- `ec2.SecurityGroup`. -/
structure SecurityGroup where
  IpPermissions : List IpPermission
deriving DecidableEq, Repr

/-- `ec2.DescribeSecurityGroupsInput`. -/
structure DescribeSecurityGroupsInput where
  GroupIds : List GoString
deriving DecidableEq, Repr

/-- `ec2.DescribeSecurityGroupsOutput`. -/
structure DescribeSecurityGroupsOutput where
  SecurityGroups : List SecurityGroup
deriving DecidableEq, Repr

/-- The three booleans `port22, port6868, port25555` that `checkPorts`
updates through pointers. -/
structure PortFlags where
  port22 : Bool
  port6868 : Bool
  port25555 : Bool
deriving DecidableEq, Repr

/-- `checkPorts` (aws_client.go:77-88). -/
def checkPorts (sgCidr cidr : GoString) (f : PortFlags) (fromPort : Int) : PortFlags :=
  if sgCidr = cidr then
    if fromPort = 22 then { f with port22 := true }
    else if fromPort = 6868 then { f with port6868 := true }
    else if fromPort = 25555 then { f with port25555 := true }
    else f
  else f

/-- The inner loop of `CheckForWhitelistedIP` (aws_client.go:65-67). -/
def scanRanges (cidr : GoString) (fromPort : Int) (f : PortFlags) (rs : List IpRange) :
    PortFlags :=
  rs.foldl (fun f sgIP => checkPorts sgIP.CidrIp cidr f fromPort) f

/-- The outer loop of `CheckForWhitelistedIP` (aws_client.go:64-68). -/
def scanPermissions (cidr : GoString) (f : PortFlags) (ps : List IpPermission) : PortFlags :=
  ps.foldl (fun f entry => scanRanges cidr entry.FromPort f entry.IpRanges) f

/-- `AWSClient.CheckForWhitelistedIP` (aws_client.go:46-75); `describe` is
the EC2 `DescribeSecurityGroups` call. -/
def CheckForWhitelistedIP
    (describe : DescribeSecurityGroupsInput → Except GoError DescribeSecurityGroupsOutput)
    (ip securityGroup : GoString) : Run (Bool × Option GoError) :=
  let cidr := ip ++ utf8 "/32"
  match describe { GroupIds := [securityGroup] } with
  | .error err => .ret (false, some err)
  | .ok securityGroupsOutput =>
    match securityGroupsOutput.SecurityGroups with
    | [] => .panic "runtime error: index out of range [0] with length 0"
    | g :: _ =>
      let ingressPermissions := g.IpPermissions
      let f := scanPermissions cidr ⟨false, false, false⟩ ingressPermissions
      if f.port22 && f.port6868 && f.port25555 then .ret (true, none)
      else .ret (false, none)

/-- The ingress permissions `ps` hold a rule for `port` whose source CIDR
is exactly `cidr`. -/
def Covers (ps : List IpPermission) (cidr : GoString) (port : Int) : Prop :=
  ∃ p ∈ ps, p.FromPort = port ∧ ∃ r ∈ p.IpRanges, r.CidrIp = cidr

/-! ## `iaas/aws_client.go`: volumes and instances -/

/-- `ec2.Filter`. -/
structure Filter where
  Name : GoString
  Values : List GoString
deriving DecidableEq, Repr

/-- `ec2.DescribeVolumesInput`. -/
structure DescribeVolumesInput where
  Filters : List Filter
deriving DecidableEq, Repr

/-- `ec2.Volume`. -/
structure Volume where
  VolumeId : GoString
deriving DecidableEq, Repr

/-- `ec2.DescribeVolumesOutput`. -/
structure DescribeVolumesOutput where
  Volumes : List Volume
deriving DecidableEq, Repr

/-- `ec2.EbsInstanceBlockDevice`. -/
structure EbsInstanceBlockDevice where
  VolumeId : Option GoString
deriving DecidableEq, Repr

/-- `ec2.InstanceBlockDeviceMapping`. -/
structure InstanceBlockDeviceMapping where
  Ebs : Option EbsInstanceBlockDevice
deriving DecidableEq, Repr

/-- `ec2.Instance`. -/
structure Instance where
  InstanceId : Option GoString
  BlockDeviceMappings : List InstanceBlockDeviceMapping
deriving DecidableEq, Repr

/-- `ec2.Reservation`. -/
structure Reservation where
  Instances : List Instance
deriving DecidableEq, Repr

/-- `ec2.DescribeInstancesInput`. -/
structure DescribeInstancesInput where
  Filters : List Filter
deriving DecidableEq, Repr

/-- `ec2.DescribeInstancesOutput`. -/
structure DescribeInstancesOutput where
  Reservations : List Reservation
deriving DecidableEq, Repr

/-- `ec2.TerminateInstancesInput`. -/
structure TerminateInstancesInput where
  InstanceIds : List (Option GoString)
deriving DecidableEq, Repr

/-- The remote calls issued by the volume and instance operations, as
recorded in the log. `deleteVolume` is an invocation of the injected
deletion strategy. -/
inductive EC2Call where
  | DescribeVolumes (input : DescribeVolumesInput)
  | deleteVolume (volumeID : GoString)
  | DescribeInstances (input : DescribeInstancesInput)
  | TerminateInstances (input : TerminateInstancesInput)
deriving DecidableEq, Repr

/-- The loop of `DeleteVolumes` (aws_client.go:119-125): returns the error
(if any), the world afterwards and the strategy invocations made. -/
def deleteVolumesLoop {σ : Type} (deleteVolume : GoString → σ → Option GoError × σ) :
    List Volume → σ → Option GoError × σ × List EC2Call
  | [], w => (none, w, [])
  | volume :: rest, w =>
    let volumeID := volume.VolumeId
    match deleteVolume volumeID w with
    | (some err, w1) => (some err, w1, [EC2Call.deleteVolume volumeID])
    | (none, w1) =>
      let r := deleteVolumesLoop deleteVolume rest w1
      (r.1, r.2.1, EC2Call.deleteVolume volumeID :: r.2.2)

/-- The request `DeleteVolumes` sends to `DescribeVolumes`
(aws_client.go:98-111). -/
def describeVolumesRequest (volumes : List GoString) : DescribeVolumesInput :=
  { Filters := [ { Name := utf8 "status", Values := [utf8 "available"] },
                 { Name := utf8 "volume-id", Values := volumes } ] }

/-- `AWSClient.DeleteVolumes` (aws_client.go:91-127). -/
def DeleteVolumes {σ : Type}
    (DescribeVolumes : DescribeVolumesInput → σ → Except GoError DescribeVolumesOutput × σ)
    (deleteVolume : GoString → σ → Option GoError × σ)
    (volumes : List GoString) (w : σ) : Option GoError × σ × List EC2Call :=
  if volumes.length = 0 then (none, w, [])
  else
    match DescribeVolumes (describeVolumesRequest volumes) w with
    | (.error err, w1) => (some err, w1, [EC2Call.DescribeVolumes (describeVolumesRequest volumes)])
    | (.ok volumesOutput, w1) =>
      let volumesToDelete := volumesOutput.Volumes
      let r := deleteVolumesLoop deleteVolume volumesToDelete w1
      (r.1, r.2.1, EC2Call.DescribeVolumes (describeVolumesRequest volumes) :: r.2.2)

/-- The world after the strategy has been invoked on `vols`, in order. -/
def worldAfter {σ : Type} (deleteVolume : GoString → σ → Option GoError × σ) (w : σ)
    (vols : List Volume) : σ :=
  vols.foldl (fun w v => (deleteVolume v.VolumeId w).2) w

/-- The innermost loop of `DeleteVMsInVPC` (aws_client.go:164-166) on
`volumesToDelete`; `none` is the panic of `blockDevice.Ebs.VolumeId` on a
nil `Ebs`. The volume ID itself is appended as a pointer, undereferenced. -/
def collectMappings :
    List (Option GoString) → List InstanceBlockDeviceMapping → Option (List (Option GoString))
  | volumesToDelete, [] => some volumesToDelete
  | volumesToDelete, blockDevice :: rest =>
    match blockDevice.Ebs with
    | none => none
    | some ebs => collectMappings (volumesToDelete ++ [ebs.VolumeId]) rest

/-- The loop over the instances of one reservation (aws_client.go:161-167)
on the pair `(instancesToTerminate, volumesToDelete)`; `none` is a panic:
the progress line dereferences `instance.InstanceId`, and the inner loop
dereferences `Ebs`. The text printed to standard output is not modelled. -/
def collectFromInstances :
    List (Option GoString) × List (Option GoString) → List Instance →
      Option (List (Option GoString) × List (Option GoString))
  | acc, [] => some acc
  | acc, inst :: rest =>
    match inst.InstanceId with
    | none => none
    | some _ =>
      match collectMappings acc.2 inst.BlockDeviceMappings with
      | none => none
      | some volumesToDelete =>
        collectFromInstances (acc.1 ++ [inst.InstanceId], volumesToDelete) rest

/-- The loop over the reservations (aws_client.go:160-168). -/
def collectInstances :
    List (Option GoString) × List (Option GoString) → List Reservation →
      Option (List (Option GoString) × List (Option GoString))
  | acc, [] => some acc
  | acc, reservation :: rest =>
    match collectFromInstances acc reservation.Instances with
    | none => none
    | some acc1 => collectInstances acc1 rest

/-- The request `DeleteVMsInVPC` sends to `DescribeInstances`
(aws_client.go:144-153). -/
def describeInstancesRequest (vpcID : GoString) : DescribeInstancesInput :=
  { Filters := [ { Name := utf8 "vpc-id", Values := [vpcID] } ] }

/-- `AWSClient.DeleteVMsInVPC` (aws_client.go:139-182): the outcome (the
returned slice, `none` being `nil`, and the returned error; or a panic), the
world afterwards and the log. -/
def DeleteVMsInVPC {σ : Type}
    (DescribeInstances : DescribeInstancesInput → σ → Except GoError DescribeInstancesOutput × σ)
    (TerminateInstances : TerminateInstancesInput → σ → Option GoError × σ)
    (vpcID : GoString) (w : σ) :
    Run (Option (List (Option GoString)) × Option GoError) × σ × List EC2Call :=
  match DescribeInstances (describeInstancesRequest vpcID) w with
  | (.error err, w1) =>
    (.ret (none, some err), w1, [EC2Call.DescribeInstances (describeInstancesRequest vpcID)])
  | (.ok resp, w1) =>
    match collectInstances ([], []) resp.Reservations with
    | none =>
      (.panic "runtime error: invalid memory address or nil pointer dereference", w1,
        [EC2Call.DescribeInstances (describeInstancesRequest vpcID)])
    | some (instancesToTerminate, volumesToDelete) =>
      if instancesToTerminate.length = 0 then
        (.ret (none, none), w1, [EC2Call.DescribeInstances (describeInstancesRequest vpcID)])
      else
        match TerminateInstances { InstanceIds := instancesToTerminate } w1 with
        | (some err, w2) =>
          (.ret (none, some err), w2,
            [EC2Call.DescribeInstances (describeInstancesRequest vpcID),
             EC2Call.TerminateInstances { InstanceIds := instancesToTerminate }])
        | (none, w2) =>
          (.ret (some volumesToDelete, none), w2,
            [EC2Call.DescribeInstances (describeInstancesRequest vpcID),
             EC2Call.TerminateInstances { InstanceIds := instancesToTerminate }])

/-- The instances of a listing, across all reservations, in listing order. -/
def listedInstances (resp : DescribeInstancesOutput) : List Instance :=
  resp.Reservations.flatMap (fun reservation => reservation.Instances)

/-- The volume IDs of those block-device mappings of an instance that have
an `Ebs` element, in order. -/
def mappedVolumes (inst : Instance) : List (Option GoString) :=
  inst.BlockDeviceMappings.filterMap (fun blockDevice =>
    blockDevice.Ebs.map (fun ebs => ebs.VolumeId))

/-- An instance that has an instance ID and whose block-device mappings all
have an `Ebs` element. -/
def Instance.Populated (inst : Instance) : Prop :=
  inst.InstanceId ≠ none ∧ ∀ blockDevice ∈ inst.BlockDeviceMappings, blockDevice.Ebs ≠ none

instance (inst : Instance) : Decidable inst.Populated :=
  inferInstanceAs (Decidable (inst.InstanceId ≠ none ∧
    ∀ blockDevice ∈ inst.BlockDeviceMappings, blockDevice.Ebs ≠ none))

/-- The elements of a possibly-nil slice. -/
def elems {α : Type} : Option (List α) → List α
  | none => []
  | some l => l

/-! ## `iaas/aws_client.go`: hosted zones -/

/-- `route53.HostedZone`. -/
structure HostedZone where
  Name : GoString
  Id : GoString
deriving DecidableEq, Repr

/-- `route53.ListHostedZonesOutput`: one page of the listing. -/
structure ListHostedZonesOutput where
  HostedZones : List HostedZone
deriving DecidableEq, Repr

/-- `AWSClient.ListHostedZones` (aws_client.go:185-198). The paginated call
`ListHostedZonesPages` hands the callback the pages `pages` and then returns
`err`; the callback appends every page and always asks for the next one. -/
def ListHostedZones (pages : List ListHostedZonesOutput) (err : Option GoError) :
    Option (List HostedZone) × Option GoError :=
  let hostedZones := pages.foldl (fun hostedZones output => hostedZones ++ output.HostedZones) []
  match err with
  | some e => (none, some e)
  | none => (some hostedZones, none)

/-- `strings.TrimRight(s, ".")`: `s` without its trailing `.` bytes. -/
def TrimRightDots (s : GoString) : GoString :=
  (s.reverse.dropWhile (fun b => b == 46)).reverse

/-- `strings.HasSuffix(s, suffix)`. -/
def HasSuffix (s suffix : GoString) : Bool := suffix.isSuffixOf s

/-- `strings.Replace(s, old, new, -1)` for a non-empty `old`: every
non-overlapping occurrence of `old`, from the left, is replaced. The first
argument counts the bytes of a matched occurrence still to be skipped. -/
def replaceAllFrom (old new : GoString) : Nat → GoString → GoString
  | _, [] => []
  | k + 1, _ :: cs => replaceAllFrom old new k cs
  | 0, c :: cs =>
    if old.isPrefixOf (c :: cs) then new ++ replaceAllFrom old new (old.length - 1) cs
    else c :: replaceAllFrom old new 0 cs

/-- The loop of `FindLongestMatchingHostedZone` (aws_client.go:209-218) on
the pair `(longestMatchingHostedZoneName, longestMatchingHostedZoneID)`. -/
def longestMatchLoop (subdomain : GoString) (acc : GoString × GoString)
    (hostedZones : List HostedZone) : GoString × GoString :=
  hostedZones.foldl (fun acc hostedZone =>
    let domain := TrimRightDots hostedZone.Name
    let id := hostedZone.Id
    if HasSuffix subdomain domain then
      if domain.length > acc.1.length then (domain, id) else acc
    else acc) acc

/-- `AWSClient.FindLongestMatchingHostedZone` (aws_client.go:201-227):
the returned name, identifier and error. -/
def FindLongestMatchingHostedZone (pages : List ListHostedZonesOutput) (err : Option GoError)
    (subdomain : GoString) : GoString × GoString × Option GoError :=
  match ListHostedZones pages err with
  | (_, some e) => ([], [], some e)
  | (hostedZones, none) =>
    let r := longestMatchLoop subdomain ([], []) (elems hostedZones)
    if r.1 = [] then
      ([], [], some ⟨utf8 "No matching hosted zone found for domain " ++ subdomain⟩)
    else
      (r.1, replaceAllFrom (utf8 "/hostedzone/") [] 0 r.2, none)

/-- A zone matches a subdomain when its name, with trailing dots trimmed,
is a suffix of the subdomain. -/
def ZoneMatches (subdomain : GoString) (z : HostedZone) : Prop :=
  TrimRightDots z.Name <:+ subdomain

instance (subdomain : GoString) (z : HostedZone) : Decidable (ZoneMatches subdomain z) :=
  inferInstanceAs (Decidable (TrimRightDots z.Name <:+ subdomain))

/-- The zones of a catalog, page after page. -/
def catalog (pages : List ListHostedZonesOutput) : List HostedZone :=
  pages.flatMap (fun output => output.HostedZones)

/-! ## Network addresses

`net.ParseCIDR`, `net.IP.String` and `cidr.Host` are library functions
outside the source tree. -/

/-- A `net.IP`: the address as a number (most significant byte first) and
its length in bytes, 4 or 16. -/
structure NetIP where
  addr : Nat
  len : Nat
deriving DecidableEq, Repr

/-- A `net.IPNet`: the base address of the range and the number of leading
one bits of its mask. -/
structure IPNet where
  IP : NetIP
  ones : Nat
deriving DecidableEq, Repr

/-- The number of addresses in a range. -/
def rangeSize (n : IPNet) : Nat := 2 ^ (8 * n.IP.len - n.ones)

/-- Modelled from the spec: `cidr.Host`, of a library that is not part of the
source tree. "DerivedAddress: the host address at a fixed offset within a
NetworkPrefix. Invariant: offset < range size, else derivation fails" with
`InvalidNetworkInput`. -/
def cidrHost (n : IPNet) (num : Nat) : Except GoError NetIP :=
  if num < rangeSize n then .ok { n.IP with addr := n.IP.addr + num }
  else .error ⟨utf8 "InvalidNetworkInput"⟩

/-- The pure functions of the `net` package that `Delete` uses. -/
structure NetLib where
  ParseCIDR : GoString → Except GoError IPNet
  String : NetIP → GoString

/-- The fields of `s` separated by the byte `sep`. -/
def splitOnByte (sep : UInt8) : GoString → List GoString
  | [] => [[]]
  | c :: cs =>
    if c = sep then [] :: splitOnByte sep cs
    else
      match splitOnByte sep cs with
      | [] => [[c]]
      | h :: t => (c :: h) :: t

/-- A non-empty run of decimal digits as a number. -/
def parseDecimal (s : GoString) : Option Nat :=
  if s = [] then none
  else s.foldl (fun acc c => acc.bind (fun n =>
    if 48 ≤ c ∧ c ≤ 57 then some (10 * n + (c.toNat - 48)) else none)) (some 0)

/-- One field of a dotted quad: at most three digits, no leading zero,
value below 256. -/
def parseOctet (s : GoString) : Option Nat :=
  if 3 < s.length ∨ (1 < s.length ∧ s.head? = some 48) then none
  else (parseDecimal s).bind (fun n => if n < 256 then some n else none)

/-- Modelled from the spec: the dotted-quad IPv4 fragment of `net.ParseCIDR`,
a library function outside the source tree. "NetworkPrefix: an address +
prefix length describing a contiguous address range"; the base address is
the address with its host bits cleared; anything else is unparseable. -/
def ParseCIDR4 (s : GoString) : Except GoError IPNet :=
  match splitOnByte 47 s with
  | [a, m] =>
    match (splitOnByte 46 a).map parseOctet, parseDecimal m with
    | [some a, some b, some c, some d], some n =>
      if n ≤ 32 then
        let addr := ((a * 256 + b) * 256 + c) * 256 + d
        .ok { IP := { addr := addr - addr % 2 ^ (32 - n), len := 4 }, ones := n }
      else .error ⟨utf8 "invalid CIDR address: " ++ s⟩
    | _, _ => .error ⟨utf8 "invalid CIDR address: " ++ s⟩
  | _ => .error ⟨utf8 "invalid CIDR address: " ++ s⟩

/-- The decimal digits of a number, least significant `fuel` digits at most. -/
def decimalDigits : Nat → Nat → GoString → GoString
  | 0, _, acc => acc
  | fuel + 1, n, acc =>
    if n / 10 = 0 then (48 + (n % 10).toUInt8) :: acc
    else decimalDigits fuel (n / 10) ((48 + (n % 10).toUInt8) :: acc)

/-- Modelled from the spec: the dotted-quad textual form of a 4-byte address
(`net.IP.String`, a library function outside the source tree), as in
`derive("10.0.0.0/24", 1) == "10.0.0.1"`. -/
def String4 (ip : NetIP) : GoString :=
  decimalDigits 3 (ip.addr / 2 ^ 24 % 256) [] ++ [46] ++
  decimalDigits 3 (ip.addr / 2 ^ 16 % 256) [] ++ [46] ++
  decimalDigits 3 (ip.addr / 2 ^ 8 % 256) [] ++ [46] ++
  decimalDigits 3 (ip.addr % 256) []

/-- The IPv4 fragment of the `net` package. -/
def net4 : NetLib := { ParseCIDR := ParseCIDR4, String := String4 }

/-! ## `bosh/gcp_delete.go` -/

/-- A `[]byte` value; `none` is `nil`. -/
abbrev Bytes := Option (List UInt8)

/-- The `temporaryStore`: a map from keys to byte slices. -/
abbrev temporaryStore := List (GoString × Bytes)

/-- Map indexing `store[key]`: the zero value `nil` when the key is absent. -/
def temporaryStore.index (store : temporaryStore) (key : GoString) : Bytes :=
  (store.lookup key).join

/-- `gcp.Environment`: the descriptor handed to `DeleteEnv`. -/
structure Environment where
  DirectorName : GoString
  ExternalIP : GoString
  GcpCredentialsJSON : GoString
  InternalCIDR : GoString
  InternalGW : GoString
  InternalIP : GoString
  Network : GoString
  PrivateSubnetwork : GoString
  ProjectID : GoString
  PublicKey : GoString
  PublicSubnetwork : GoString
  Spot : Bool
  Zone : GoString
deriving DecidableEq, Repr

/-- What the getters of `client.config` return. -/
structure Config where
  DirectorPassword : GoString
  DirectorCACert : GoString
  DirectorCert : GoString
  DirectorKey : GoString
  PublicCIDR : GoString
  PublicKey : GoString
  Spot : Bool
deriving DecidableEq, Repr

/-- The collaborators of `GCPClient`: the outputs store, the provider and
the deployer, as functions over the world state. `DeleteEnv` receives the
store by reference and hands back its contents afterwards. -/
structure Collaborators (σ : Type) where
  outputsGet : GoString → σ → Except GoError GoString × σ
  providerAttr : GoString → σ → Except GoError GoString × σ
  providerZone : GoString → GoString → σ → GoString × σ
  RunAuthenticatedCommand :
    GoString → GoString → GoString → GoString → Bool → List GoString → σ → Option GoError × σ
  DeleteEnv :
    temporaryStore → Environment → GoString → GoString → GoString → GoString → σ →
      (temporaryStore × Option GoError) × σ

/-- The collaborator calls as recorded in the log. -/
inductive Call where
  | outputsGet (key : GoString)
  | providerAttr (name : GoString)
  | providerZone (a b : GoString)
  | RunAuthenticatedCommand (action ip password caCert : GoString) (detach : Bool)
      (flags : List GoString)
  | DeleteEnv (store : temporaryStore) (env : Environment)
      (password cert key caCert : GoString)
deriving DecidableEq, Repr

/-- The world together with the log of the calls made so far. -/
structure St (σ : Type) where
  world : σ
  log : List Call

/-- `client.outputs.Get(key)`, logged. -/
def getOutput {σ : Type} (c : Collaborators σ) (key : GoString) (s : St σ) :
    Except GoError GoString × St σ :=
  ((c.outputsGet key s.world).1, ⟨(c.outputsGet key s.world).2, s.log ++ [Call.outputsGet key]⟩)

/-- `client.provider.Attr(name)`, logged. -/
def getAttr {σ : Type} (c : Collaborators σ) (name : GoString) (s : St σ) :
    Except GoError GoString × St σ :=
  ((c.providerAttr name s.world).1,
    ⟨(c.providerAttr name s.world).2, s.log ++ [Call.providerAttr name]⟩)

/-- `client.provider.Zone(a, b)`, logged. -/
def getZone {σ : Type} (c : Collaborators σ) (a b : GoString) (s : St σ) : GoString × St σ :=
  ((c.providerZone a b s.world).1,
    ⟨(c.providerZone a b s.world).2, s.log ++ [Call.providerZone a b]⟩)

/-- `client.boshCLI.RunAuthenticatedCommand(...)`, logged. -/
def runAuthenticated {σ : Type} (c : Collaborators σ) (action ip password caCert : GoString)
    (detach : Bool) (flags : List GoString) (s : St σ) : Option GoError × St σ :=
  ((c.RunAuthenticatedCommand action ip password caCert detach flags s.world).1,
    ⟨(c.RunAuthenticatedCommand action ip password caCert detach flags s.world).2,
      s.log ++ [Call.RunAuthenticatedCommand action ip password caCert detach flags]⟩)

/-- `client.boshCLI.DeleteEnv(...)`, logged. -/
def runDeleteEnv {σ : Type} (c : Collaborators σ) (store : temporaryStore) (env : Environment)
    (password cert key caCert : GoString) (s : St σ) :
    (temporaryStore × Option GoError) × St σ :=
  ((c.DeleteEnv store env password cert key caCert s.world).1,
    ⟨(c.DeleteEnv store env password cert key caCert s.world).2,
      s.log ++ [Call.DeleteEnv store env password cert key caCert]⟩)

/-- `GCPClient.Delete` (gcp_delete.go:13-85): the returned blob and error,
with the world and the log afterwards. -/
def Delete {σ : Type} (net : NetLib) (c : Collaborators σ) (config : Config)
    (stateFileBytes : Bytes) (s : St σ) : (Bytes × Option GoError) × St σ :=
  match getOutput c (utf8 "DirectorPublicIP") s with
  | (.error err, s) =>
    ((none, some ⟨utf8 "failed to retrieve director IP: [" ++ err.msg ++ utf8 "]"⟩), s)
  | (.ok directorPublicIP, s) =>
  match runAuthenticated c (utf8 "delete-deployment") directorPublicIP config.DirectorPassword
      config.DirectorCACert false [utf8 "--force"] s with
  | (some err, s) => ((none, some err), s)
  | (none, s) =>
  let store : temporaryStore := [(utf8 "state.json", stateFileBytes)]
  let publicCIDR := config.PublicCIDR
  match net.ParseCIDR publicCIDR with
  | .error err => ((store.index (utf8 "state.json"), some err), s)
  | .ok pubCIDR =>
  match cidrHost pubCIDR 1 with
  | .error err => ((store.index (utf8 "state.json"), some err), s)
  | .ok internalGateway =>
  match cidrHost pubCIDR 6 with
  | .error err => ((store.index (utf8 "state.json"), some err), s)
  | .ok directorInternalIP =>
  match getAttr c (utf8 "credentials_path") s with
  | (.error err, s) => ((store.index (utf8 "state.json"), some err), s)
  | (.ok credentialsPath, s) =>
  match getOutput c (utf8 "Network") s with
  | (.error err, s) => ((store.index (utf8 "state.json"), some err), s)
  | (.ok network, s) =>
  match getOutput c (utf8 "PublicSubnetworkName") s with
  | (.error err, s) => ((store.index (utf8 "state.json"), some err), s)
  | (.ok publicSubnetwork, s) =>
  match getOutput c (utf8 "PrivateSubnetworkName") s with
  | (.error err, s) => ((store.index (utf8 "state.json"), some err), s)
  | (.ok privateSubnetwork, s) =>
  match getAttr c (utf8 "project") s with
  | (.error err, s) => ((store.index (utf8 "state.json"), some err), s)
  | (.ok project, s) =>
  match getZone c [] [] s with
  | (zone, s) =>
  match runDeleteEnv c store
      { DirectorName := utf8 "bosh"
        ExternalIP := directorPublicIP
        GcpCredentialsJSON := credentialsPath
        InternalCIDR := config.PublicCIDR
        InternalGW := net.String internalGateway
        InternalIP := net.String directorInternalIP
        Network := network
        PrivateSubnetwork := privateSubnetwork
        ProjectID := project
        PublicKey := config.PublicKey
        PublicSubnetwork := publicSubnetwork
        Spot := config.Spot
        Zone := zone }
      config.DirectorPassword config.DirectorCert config.DirectorKey config.DirectorCACert s with
  | ((store, err), s) => ((store.index (utf8 "state.json"), err), s)

/-- `Delete` run from the world `w` with an empty log. -/
def runDelete {σ : Type} (net : NetLib) (c : Collaborators σ) (config : Config)
    (stateFileBytes : Bytes) (w : σ) : (Bytes × Option GoError) × St σ :=
  Delete net c config stateFileBytes ⟨w, []⟩

/-- The descriptors of the `DeleteEnv` calls in a log. -/
def deleteEnvCalls : List Call → List Environment
  | [] => []
  | Call.DeleteEnv _ env _ _ _ _ :: rest => env :: deleteEnvCalls rest
  | _ :: rest => deleteEnvCalls rest

/-- A call that changes the deployment: the forced deployment removal or
the environment deletion. -/
def Call.destructive : Call → Bool
  | Call.RunAuthenticatedCommand .. => true
  | Call.DeleteEnv .. => true
  | _ => false

/-! ## Sample collaborators -/

/-- A security-group service that knows one group, `sg-1`, whose rules open
ports 22, 6868 and 25555 to `1.2.3.4/32` from different permissions. -/
def sampleGroups (input : DescribeSecurityGroupsInput) :
    Except GoError DescribeSecurityGroupsOutput :=
  if input.GroupIds = [utf8 "sg-1"] then
    .ok { SecurityGroups := [ { IpPermissions :=
      [ { FromPort := 22, IpRanges := [⟨utf8 "9.9.9.9/32"⟩, ⟨utf8 "1.2.3.4/32"⟩] },
        { FromPort := 6868, IpRanges := [⟨utf8 "1.2.3.4/32"⟩] },
        { FromPort := 25555, IpRanges := [⟨utf8 "1.2.3.4/32"⟩] } ] } ] }
  else .error ⟨utf8 "InvalidGroup.NotFound"⟩

/-- A volume service over a counter of strategy invocations: three volumes
are available. -/
def sampleVolumes (_ : DescribeVolumesInput) (n : Nat) :
    Except GoError DescribeVolumesOutput × Nat :=
  (.ok { Volumes := [⟨utf8 "vol-a"⟩, ⟨utf8 "vol-b"⟩, ⟨utf8 "vol-c"⟩] }, n)

/-- A deletion strategy that fails on its second invocation. -/
def failSecond (_ : GoString) (n : Nat) : Option GoError × Nat :=
  (if n = 1 then some ⟨utf8 "VolumeInUse"⟩ else none, n + 1)

/-- An instance listing with two reservations and three instances. -/
def sampleListing : DescribeInstancesOutput :=
  { Reservations :=
    [ { Instances := [ { InstanceId := some (utf8 "i-1"),
                         BlockDeviceMappings :=
                           [⟨some ⟨some (utf8 "vol-a")⟩⟩, ⟨some ⟨some (utf8 "vol-b")⟩⟩] } ] },
      { Instances := [ { InstanceId := some (utf8 "i-2"), BlockDeviceMappings := [] },
                       { InstanceId := some (utf8 "i-3"),
                         BlockDeviceMappings := [⟨some ⟨some (utf8 "vol-c")⟩⟩] } ] } ] }

/-- A listing whose only reservation holds no instance. -/
def emptyListing : DescribeInstancesOutput := { Reservations := [ { Instances := [] } ] }

/-- A listing with one instance, one of whose block-device mappings has no
`Ebs` element. -/
def listingWithoutEbs : DescribeInstancesOutput :=
  { Reservations :=
    [ { Instances := [ { InstanceId := some (utf8 "i-1"),
                         BlockDeviceMappings := [⟨some ⟨some (utf8 "vol-a")⟩⟩, ⟨none⟩] } ] } ] }

/-- A listing with one instance that carries no instance ID. -/
def listingWithoutInstanceId : DescribeInstancesOutput :=
  { Reservations := [ { Instances := [ { InstanceId := none, BlockDeviceMappings := [] } ] } ] }

/-- A terminate call over a counter of terminate calls: it always
succeeds. -/
def countingTerminate (_ : TerminateInstancesInput) (n : Nat) : Option GoError × Nat :=
  (none, n + 1)

/-- A zone catalog of two pages. -/
def samplePages : List ListHostedZonesOutput :=
  [ { HostedZones := [⟨utf8 "com.", utf8 "/hostedzone/Z1"⟩] },
    { HostedZones := [⟨utf8 "example.com.", utf8 "/hostedzone/Z2"⟩] } ]

/-- The same catalog in the opposite order. -/
def samplePagesReversed : List ListHostedZonesOutput :=
  [ { HostedZones := [⟨utf8 "example.com.", utf8 "/hostedzone/Z2"⟩] },
    { HostedZones := [⟨utf8 "com.", utf8 "/hostedzone/Z1"⟩] } ]

/-- A configuration whose public range is `10.0.0.0/24`. -/
def sampleConfig : Config :=
  { DirectorPassword := utf8 "secret"
    DirectorCACert := utf8 "ca"
    DirectorCert := utf8 "cert"
    DirectorKey := utf8 "key"
    PublicCIDR := utf8 "10.0.0.0/24"
    PublicKey := utf8 "ssh-rsa"
    Spot := true }

/-- Collaborators that always succeed; `DeleteEnv` leaves the store alone. -/
def healthy : Collaborators Unit :=
  { outputsGet := fun key w => (.ok (utf8 "out-" ++ key), w)
    providerAttr := fun name w => (.ok (utf8 "attr-" ++ name), w)
    providerZone := fun _ _ w => (utf8 "europe-west1-b", w)
    RunAuthenticatedCommand := fun _ _ _ _ _ _ w => (none, w)
    DeleteEnv := fun store _ _ _ _ _ w => ((store, none), w) }

/-- Collaborators whose outputs store is down. -/
def outputsDown : Collaborators Unit :=
  { healthy with outputsGet := fun _ w => (.error ⟨utf8 "key not found"⟩, w) }

/-- Collaborators whose `DeleteEnv` rewrites the state entry and then fails. -/
def deleteEnvFails : Collaborators Unit :=
  { healthy with
    DeleteEnv := fun _ _ _ _ _ _ w =>
      (([(utf8 "state.json", some (utf8 "partial"))], some ⟨utf8 "delete-env failed"⟩), w) }

/-! ## Theorems -/

/-! ### Auxiliary lemmas -/

theorem or_and_or_assoc (a b c d : Prop) : ((a ∨ b ∧ c) ∨ b ∧ d ↔ a ∨ b ∧ (c ∨ d)) := by
  tauto

theorem checkPorts_flags (sg cidr : GoString) (f : PortFlags) (fp : Int) :
    ((checkPorts sg cidr f fp).port22 = true ↔ f.port22 = true ∨ (fp = 22 ∧ sg = cidr)) ∧
    ((checkPorts sg cidr f fp).port6868 = true ↔ f.port6868 = true ∨ (fp = 6868 ∧ sg = cidr)) ∧
    ((checkPorts sg cidr f fp).port25555 = true ↔
      f.port25555 = true ∨ (fp = 25555 ∧ sg = cidr)) := by
  unfold checkPorts
  split_ifs with h1 h2 h3 h4 <;> simp_all

theorem scanRanges_flags (cidr : GoString) (fp : Int) (rs : List IpRange) (f : PortFlags) :
    ((scanRanges cidr fp f rs).port22 = true ↔
      f.port22 = true ∨ (fp = 22 ∧ ∃ r ∈ rs, r.CidrIp = cidr)) ∧
    ((scanRanges cidr fp f rs).port6868 = true ↔
      f.port6868 = true ∨ (fp = 6868 ∧ ∃ r ∈ rs, r.CidrIp = cidr)) ∧
    ((scanRanges cidr fp f rs).port25555 = true ↔
      f.port25555 = true ∨ (fp = 25555 ∧ ∃ r ∈ rs, r.CidrIp = cidr)) := by
  induction rs generalizing f with
  | nil => simp [scanRanges]
  | cons r rs ih =>
    have h := checkPorts_flags r.CidrIp cidr f fp
    have ih2 := ih (checkPorts r.CidrIp cidr f fp)
    simp only [scanRanges, List.foldl_cons] at ih2 ⊢
    rw [ih2.1, ih2.2.1, ih2.2.2, h.1, h.2.1, h.2.2]
    simp only [List.mem_cons, exists_eq_or_imp]
    have key := or_and_or_assoc
    exact ⟨key _ _ _ _, key _ _ _ _, key _ _ _ _⟩

theorem scanPermissions_flags (cidr : GoString) (ps : List IpPermission) (f : PortFlags) :
    ((scanPermissions cidr f ps).port22 = true ↔ f.port22 = true ∨ Covers ps cidr 22) ∧
    ((scanPermissions cidr f ps).port6868 = true ↔ f.port6868 = true ∨ Covers ps cidr 6868) ∧
    ((scanPermissions cidr f ps).port25555 = true ↔
      f.port25555 = true ∨ Covers ps cidr 25555) := by
  induction ps generalizing f with
  | nil => simp [scanPermissions, Covers]
  | cons p ps ih =>
    have h := scanRanges_flags cidr p.FromPort p.IpRanges f
    have ih2 := ih (scanRanges cidr p.FromPort f p.IpRanges)
    simp only [scanPermissions, List.foldl_cons] at ih2 ⊢
    rw [ih2.1, ih2.2.1, ih2.2.2, h.1, h.2.1, h.2.2]
    simp only [Covers, List.mem_cons, exists_eq_or_imp]
    have key : ∀ a b c d : Prop, ((a ∨ b ∧ c) ∨ d ↔ a ∨ b ∧ c ∨ d) :=
      fun a b c d => or_assoc
    exact ⟨key _ _ _ _, key _ _ _ _, key _ _ _ _⟩


theorem allPorts_iff (cidr : GoString) (ps : List IpPermission) :
    ((scanPermissions cidr ⟨false, false, false⟩ ps).port22 &&
      (scanPermissions cidr ⟨false, false, false⟩ ps).port6868 &&
      (scanPermissions cidr ⟨false, false, false⟩ ps).port25555) = true ↔
    ∀ port : Int, port = 22 ∨ port = 6868 ∨ port = 25555 →
      ∃ p ∈ ps, p.FromPort = port ∧ ∃ r ∈ p.IpRanges, r.CidrIp = cidr := by
  have hf := scanPermissions_flags cidr ps ⟨false, false, false⟩
  simp only [Covers, Bool.false_eq_true, false_or] at hf
  simp only [Bool.and_eq_true]
  constructor
  · rintro ⟨⟨h1, h2⟩, h3⟩ port (rfl | rfl | rfl)
    · exact hf.1.mp h1
    · exact hf.2.1.mp h2
    · exact hf.2.2.mp h3
  · intro hall
    exact ⟨⟨hf.1.mpr (hall 22 (by simp)), hf.2.1.mpr (hall 6868 (by simp))⟩,
      hf.2.2.mpr (hall 25555 (by simp))⟩

theorem worldAfter_cons {σ : Type} (deleteVolume : GoString → σ → Option GoError × σ) (w : σ)
    (v : Volume) (vs : List Volume) :
    worldAfter deleteVolume w (v :: vs) =
      worldAfter deleteVolume (deleteVolume v.VolumeId w).2 vs := rfl

theorem deleteVolumesLoop_first_failure {σ : Type}
    (deleteVolume : GoString → σ → Option GoError × σ) (vols : List Volume) :
    ∀ (w : σ) (k : Nat) (vk : Volume) (e : GoError), vols[k]? = some vk →
      (∀ j v, j < k → vols[j]? = some v →
        (deleteVolume v.VolumeId (worldAfter deleteVolume w (vols.take j))).1 = none) →
      (deleteVolume vk.VolumeId (worldAfter deleteVolume w (vols.take k))).1 = some e →
      deleteVolumesLoop deleteVolume vols w =
        (some e, (deleteVolume vk.VolumeId (worldAfter deleteVolume w (vols.take k))).2,
          (vols.take (k + 1)).map (fun v => EC2Call.deleteVolume v.VolumeId)) := by
  induction vols with
  | nil => intro w k vk e hk; simp at hk
  | cons v vs ih =>
    intro w k vk e hk hprev hfail
    cases k with
    | zero =>
      simp only [List.getElem?_cons_zero, Option.some.injEq] at hk
      subst hk
      simp only [List.take_zero, worldAfter, List.foldl_nil] at hfail ⊢
      simp only [deleteVolumesLoop]
      split
      · next err w1 heq => simp_all
      · next w1 heq => simp_all
    | succ k =>
      have h0 := hprev 0 v (Nat.succ_pos k) (by simp)
      simp only [List.take_zero, worldAfter, List.foldl_nil] at h0
      simp only [List.getElem?_cons_succ] at hk
      have ih2 := ih (deleteVolume v.VolumeId w).2 k vk e hk
        (fun j u hj hu => by
          have := hprev (j + 1) u (Nat.succ_lt_succ hj) (by simpa using hu)
          simpa [worldAfter] using this)
        (by simpa [worldAfter] using hfail)
      simp only [deleteVolumesLoop]
      split
      · next err w1 heq => simp [heq] at h0
      · next w1 heq =>
        simp only [heq] at ih2
        simp [ih2, List.take_succ_cons, worldAfter_cons, heq]

theorem deleteVolumesLoop_all_succeed {σ : Type}
    (deleteVolume : GoString → σ → Option GoError × σ) (vols : List Volume) :
    ∀ (w : σ),
      (∀ j v, vols[j]? = some v →
        (deleteVolume v.VolumeId (worldAfter deleteVolume w (vols.take j))).1 = none) →
      deleteVolumesLoop deleteVolume vols w =
        (none, worldAfter deleteVolume w vols,
          vols.map (fun v => EC2Call.deleteVolume v.VolumeId)) := by
  induction vols with
  | nil => intro w _; simp [deleteVolumesLoop, worldAfter]
  | cons v vs ih =>
    intro w hall
    have h0 := hall 0 v (by simp)
    simp only [List.take_zero, worldAfter, List.foldl_nil] at h0
    have ih2 := ih (deleteVolume v.VolumeId w).2
      (fun j u hu => by
        have := hall (j + 1) u (by simpa using hu)
        simpa [worldAfter] using this)
    simp only [deleteVolumesLoop]
    split
    · next err w1 heq => simp [heq] at h0
    · next w1 heq =>
      simp only [heq] at ih2
      simp [ih2, worldAfter_cons, heq]

theorem collectMappings_populated (bs : List InstanceBlockDeviceMapping) :
    ∀ vs : List (Option GoString), (∀ b ∈ bs, b.Ebs ≠ none) →
      collectMappings vs bs =
        some (vs ++ bs.filterMap (fun b => b.Ebs.map (fun ebs => ebs.VolumeId))) := by
  induction bs with
  | nil => intro vs _; simp [collectMappings]
  | cons b bs ih =>
    intro vs h
    have hb := h b (by simp)
    cases hE : b.Ebs with
    | none => exact absurd hE hb
    | some ebs =>
      simp only [collectMappings, hE]
      rw [ih _ (fun u hu => h u (by simp [hu]))]
      simp [hE]

theorem collectFromInstances_populated (is : List Instance) :
    ∀ acc : List (Option GoString) × List (Option GoString),
      (∀ inst ∈ is, inst.Populated) →
      collectFromInstances acc is =
        some (acc.1 ++ is.map (fun inst => inst.InstanceId),
              acc.2 ++ is.flatMap mappedVolumes) := by
  induction is with
  | nil => intro acc _; simp [collectFromInstances]
  | cons i is ih =>
    intro acc h
    obtain ⟨hid, hebs⟩ := h i (by simp)
    cases hI : i.InstanceId with
    | none => exact absurd hI hid
    | some id =>
      simp only [collectFromInstances, hI, collectMappings_populated _ _ hebs]
      rw [ih _ (fun u hu => h u (by simp [hu]))]
      simp [hI, mappedVolumes]

theorem collectInstances_populated (rs : List Reservation) :
    ∀ acc : List (Option GoString) × List (Option GoString),
      (∀ inst ∈ rs.flatMap (fun r => r.Instances), inst.Populated) →
      collectInstances acc rs =
        some (acc.1 ++ (rs.flatMap (fun r => r.Instances)).map (fun inst => inst.InstanceId),
              acc.2 ++ (rs.flatMap (fun r => r.Instances)).flatMap mappedVolumes) := by
  induction rs with
  | nil => intro acc _; simp [collectInstances]
  | cons r rs ih =>
    intro acc h
    simp only [collectInstances]
    rw [collectFromInstances_populated _ _ (fun u hu => h u (by simp [hu]))]
    simp only
    rw [ih _ (fun u hu => h u (by
      simp only [List.flatMap_cons, List.mem_append]
      exact Or.inr hu))]
    simp

theorem collectInstances_eq (resp : DescribeInstancesOutput)
    (h : ∀ inst ∈ listedInstances resp, inst.Populated) :
    collectInstances ([], []) resp.Reservations =
      some ((listedInstances resp).map (fun inst => inst.InstanceId),
            (listedInstances resp).flatMap mappedVolumes) := by
  rw [collectInstances_populated _ _ h]
  simp [listedInstances]

theorem foldPages (pages : List ListHostedZonesOutput) (acc : List HostedZone) :
    pages.foldl (fun hostedZones output => hostedZones ++ output.HostedZones) acc =
      acc ++ catalog pages := by
  induction pages generalizing acc with
  | nil => simp [catalog]
  | cons p ps ih =>
    rw [List.foldl_cons, ih]
    simp [catalog]

theorem ListHostedZones_ok (pages : List ListHostedZonesOutput) :
    ListHostedZones pages none = (some (catalog pages), none) := by
  simp [ListHostedZones, foldPages]

theorem HasSuffix_iff (subdomain : GoString) (z : HostedZone) :
    HasSuffix subdomain (TrimRightDots z.Name) = true ↔ ZoneMatches subdomain z := by
  simp [HasSuffix, ZoneMatches]

theorem longestMatchLoop_spec (subdomain : GoString) (zs : List HostedZone) :
    ∀ acc : GoString × GoString,
      (longestMatchLoop subdomain acc zs = acc ∨
        ∃ z ∈ zs, ZoneMatches subdomain z ∧
          longestMatchLoop subdomain acc zs = (TrimRightDots z.Name, z.Id)) ∧
      acc.1.length ≤ (longestMatchLoop subdomain acc zs).1.length ∧
      ∀ z ∈ zs, ZoneMatches subdomain z →
        (TrimRightDots z.Name).length ≤ (longestMatchLoop subdomain acc zs).1.length := by
  induction zs with
  | nil => intro acc; simp [longestMatchLoop]
  | cons z zs ih =>
    intro acc
    simp only [longestMatchLoop, List.foldl_cons] at ih ⊢
    by_cases hm : HasSuffix subdomain (TrimRightDots z.Name) = true
    · have hz := (HasSuffix_iff subdomain z).mp hm
      by_cases hl : (TrimRightDots z.Name).length > acc.1.length
      · simp only [hm, hl, if_true]
        obtain ⟨h1, h2, h3⟩ := ih (TrimRightDots z.Name, z.Id)
        refine ⟨Or.inr ?_, ?_, ?_⟩
        · rcases h1 with h | ⟨u, hu, hmu, h⟩
          · exact ⟨z, by simp, hz, h⟩
          · exact ⟨u, by simp [hu], hmu, h⟩
        · exact le_trans (le_of_lt hl) h2
        · intro u hu hmu
          rcases List.mem_cons.mp hu with rfl | hu
          · exact h2
          · exact h3 u hu hmu
      · simp only [hm, hl, if_true, if_false]
        obtain ⟨h1, h2, h3⟩ := ih acc
        refine ⟨?_, h2, ?_⟩
        · rcases h1 with h | ⟨u, hu, hmu, h⟩
          · exact Or.inl h
          · exact Or.inr ⟨u, by simp [hu], hmu, h⟩
        · intro u hu hmu
          rcases List.mem_cons.mp hu with rfl | hu
          · exact le_trans (not_lt.mp hl) h2
          · exact h3 u hu hmu
    · have hz : ¬ ZoneMatches subdomain z := fun h => hm ((HasSuffix_iff subdomain z).mpr h)
      simp only [hm]
      obtain ⟨h1, h2, h3⟩ := ih acc
      refine ⟨?_, h2, ?_⟩
      · rcases h1 with h | ⟨u, hu, hmu, h⟩
        · exact Or.inl h
        · exact Or.inr ⟨u, by simp [hu], hmu, h⟩
      · intro u hu hmu
        rcases List.mem_cons.mp hu with rfl | hu
        · exact absurd hmu hz
        · exact h3 u hu hmu

theorem longestMatchLoop_empty_iff (subdomain : GoString) (zs : List HostedZone) :
    (longestMatchLoop subdomain ([], []) zs).1 = [] ↔
      ¬ ∃ z ∈ zs, ZoneMatches subdomain z ∧ TrimRightDots z.Name ≠ [] := by
  obtain ⟨h1, _, h3⟩ := longestMatchLoop_spec subdomain zs ([], [])
  constructor
  · rintro he ⟨z, hz, hm, hne⟩
    have := h3 z hz hm
    rw [he] at this
    exact hne (List.length_eq_zero.mp (Nat.le_zero.mp this))
  · intro hno
    rcases h1 with h | ⟨z, hz, hm, h⟩
    · rw [h]
    · rw [h]
      by_contra hne
      exact hno ⟨z, hz, hm, hne⟩


theorem deleteEnvCalls_append (l1 l2 : List Call) :
    deleteEnvCalls (l1 ++ l2) = deleteEnvCalls l1 ++ deleteEnvCalls l2 := by
  induction l1 with
  | nil => simp [deleteEnvCalls]
  | cons a l ih => cases a <;> simp [deleteEnvCalls, ih]

theorem index_singleton (key : GoString) (b : Bytes) :
    temporaryStore.index [(key, b)] key = b := by
  simp [temporaryStore.index, List.lookup]

/-! ### CheckForWhitelistedIP -/

/-- Claim C1: when the description succeeds and has a first group,
`CheckForWhitelistedIP` returns `(true, nil)` exactly when each of the ports
22, 6868 and 25555 has some permission with that `FromPort` holding a source
CIDR equal to `ip` followed by `/32`, and `(false, nil)` otherwise. -/
theorem CheckForWhitelistedIP_true_iff
    (describe : DescribeSecurityGroupsInput → Except GoError DescribeSecurityGroupsOutput)
    (ip securityGroup : GoString) (g : SecurityGroup) (rest : List SecurityGroup)
    (h : describe { GroupIds := [securityGroup] } = .ok { SecurityGroups := g :: rest }) :
    (CheckForWhitelistedIP describe ip securityGroup = .ret (true, none) ↔
      ∀ port : Int, port = 22 ∨ port = 6868 ∨ port = 25555 →
        ∃ p ∈ g.IpPermissions, p.FromPort = port ∧
          ∃ r ∈ p.IpRanges, r.CidrIp = ip ++ utf8 "/32") ∧
    ((¬ ∀ port : Int, port = 22 ∨ port = 6868 ∨ port = 25555 →
        ∃ p ∈ g.IpPermissions, p.FromPort = port ∧
          ∃ r ∈ p.IpRanges, r.CidrIp = ip ++ utf8 "/32") →
      CheckForWhitelistedIP describe ip securityGroup = .ret (false, none)) := by
  have hall := allPorts_iff (ip ++ utf8 "/32") g.IpPermissions
  have hiff : (CheckForWhitelistedIP describe ip securityGroup = .ret (true, none) ↔
      ∀ port : Int, port = 22 ∨ port = 6868 ∨ port = 25555 →
        ∃ p ∈ g.IpPermissions, p.FromPort = port ∧
          ∃ r ∈ p.IpRanges, r.CidrIp = ip ++ utf8 "/32") := by
    rw [← hall]
    simp only [CheckForWhitelistedIP, h]
    split_ifs with hc <;> simp [hc]
  refine ⟨hiff, fun hno => ?_⟩
  have hne : CheckForWhitelistedIP describe ip securityGroup ≠ .ret (true, none) :=
    fun ht => hno (hiff.mp ht)
  simp only [CheckForWhitelistedIP, h] at hne ⊢
  split_ifs at hne ⊢ with hc
  · exact absurd rfl hne
  · rfl

/-- Witness of C1: the sample group opens the three ports to `1.2.3.4/32`
from three different permissions, and the check returns `(true, nil)`. -/
theorem CheckForWhitelistedIP_true_iff_witness :
    sampleGroups { GroupIds := [utf8 "sg-1"] } =
      .ok { SecurityGroups := [ { IpPermissions :=
        [ { FromPort := 22, IpRanges := [⟨utf8 "9.9.9.9/32"⟩, ⟨utf8 "1.2.3.4/32"⟩] },
          { FromPort := 6868, IpRanges := [⟨utf8 "1.2.3.4/32"⟩] },
          { FromPort := 25555, IpRanges := [⟨utf8 "1.2.3.4/32"⟩] } ] } ] } ∧
    (CheckForWhitelistedIP sampleGroups (utf8 "1.2.3.4") (utf8 "sg-1") = .ret (true, none) ↔
      ∀ port : Int, port = 22 ∨ port = 6868 ∨ port = 25555 →
        ∃ p ∈ [ ({ FromPort := 22, IpRanges := [⟨utf8 "9.9.9.9/32"⟩, ⟨utf8 "1.2.3.4/32"⟩] } :
                  IpPermission),
                { FromPort := 6868, IpRanges := [⟨utf8 "1.2.3.4/32"⟩] },
                { FromPort := 25555, IpRanges := [⟨utf8 "1.2.3.4/32"⟩] } ],
          p.FromPort = port ∧ ∃ r ∈ p.IpRanges, r.CidrIp = utf8 "1.2.3.4" ++ utf8 "/32") ∧
    CheckForWhitelistedIP sampleGroups (utf8 "1.2.3.4") (utf8 "sg-1") = .ret (true, none) :=
  ⟨rfl, (CheckForWhitelistedIP_true_iff sampleGroups (utf8 "1.2.3.4") (utf8 "sg-1") _ [] rfl).1,
    by decide⟩

/-- The spec's example: a single matching rule at port 22 is not enough,
and rules for another address never count. -/
theorem CheckForWhitelistedIP_partial_cover :
    CheckForWhitelistedIP
      (fun _ => .ok { SecurityGroups := [ { IpPermissions :=
        [ { FromPort := 22, IpRanges := [⟨utf8 "1.2.3.4/32"⟩] },
          { FromPort := 6868, IpRanges := [⟨utf8 "5.6.7.8/32"⟩] },
          { FromPort := 25555, IpRanges := [⟨utf8 "5.6.7.8/32"⟩] } ] } ] })
      (utf8 "1.2.3.4") (utf8 "sg-1") = .ret (false, none) := by
  decide

/-- Claim C9, the part that holds: a failed description is reported as that
error, with `false`. -/
theorem CheckForWhitelistedIP_lookup_error
    (describe : DescribeSecurityGroupsInput → Except GoError DescribeSecurityGroupsOutput)
    (ip securityGroup : GoString) (err : GoError)
    (h : describe { GroupIds := [securityGroup] } = .error err) :
    CheckForWhitelistedIP describe ip securityGroup = .ret (false, some err) := by
  simp [CheckForWhitelistedIP, h]

/-- Claim C9, the part that holds: `(false, nil)` is returned only when a
first group exists and its rules do not cover all three required ports. -/
theorem CheckForWhitelistedIP_false_only_if_uncovered
    (describe : DescribeSecurityGroupsInput → Except GoError DescribeSecurityGroupsOutput)
    (ip securityGroup : GoString)
    (h : CheckForWhitelistedIP describe ip securityGroup = .ret (false, none)) :
    ∃ g rest, describe { GroupIds := [securityGroup] } = .ok { SecurityGroups := g :: rest } ∧
      ¬ ∀ port : Int, port = 22 ∨ port = 6868 ∨ port = 25555 →
        ∃ p ∈ g.IpPermissions, p.FromPort = port ∧
          ∃ r ∈ p.IpRanges, r.CidrIp = ip ++ utf8 "/32" := by
  cases hd : describe { GroupIds := [securityGroup] } with
  | error err => simp [CheckForWhitelistedIP, hd] at h
  | ok out =>
    obtain ⟨groups⟩ := out
    cases groups with
    | nil => simp [CheckForWhitelistedIP, hd] at h
    | cons g rest =>
      refine ⟨g, rest, rfl, fun hall => ?_⟩
      have hc := (allPorts_iff (ip ++ utf8 "/32") g.IpPermissions).mpr hall
      simp [CheckForWhitelistedIP, hd, hc] at h

/-- Claim C9 at the failing input: when the description succeeds with an
empty group list, taking the first group panics; no error value is
returned. -/
theorem CheckForWhitelistedIP_empty_group_list (ip securityGroup : GoString) :
    CheckForWhitelistedIP (fun _ => .ok { SecurityGroups := [] }) ip securityGroup =
      .panic "runtime error: index out of range [0] with length 0" ∧
    ∀ r, CheckForWhitelistedIP (fun _ => .ok { SecurityGroups := [] }) ip securityGroup ≠
      .ret r := by
  simp [CheckForWhitelistedIP]

/-! ### DeleteVolumes -/

/-- Claim C6: for a non-empty request whose description succeeds with the
volumes `vols`, the strategy is invoked on them in order, each invocation
acting on the world the previous one left; if it first fails at position
`k`, `DeleteVolumes` returns that error, the invocations are exactly those
on the first `k + 1` volumes and the world is the one the failing invocation
left (nothing is rolled back); if it never fails, it is invoked exactly once
on each volume, the world is the one after all of them, and `DeleteVolumes`
returns no error. -/
theorem DeleteVolumes_stops_at_first_error {σ : Type}
    (DescribeVolumes : DescribeVolumesInput → σ → Except GoError DescribeVolumesOutput × σ)
    (deleteVolume : GoString → σ → Option GoError × σ)
    (volumes : List GoString) (w w1 : σ) (vols : List Volume)
    (hne : volumes ≠ [])
    (hdesc : DescribeVolumes (describeVolumesRequest volumes) w = (.ok { Volumes := vols }, w1)) :
    (∀ (k : Nat) (vk : Volume) (e : GoError), vols[k]? = some vk →
      (∀ j v, j < k → vols[j]? = some v →
        (deleteVolume v.VolumeId (worldAfter deleteVolume w1 (vols.take j))).1 = none) →
      (deleteVolume vk.VolumeId (worldAfter deleteVolume w1 (vols.take k))).1 = some e →
      (DeleteVolumes DescribeVolumes deleteVolume volumes w).1 = some e ∧
      (DeleteVolumes DescribeVolumes deleteVolume volumes w).2.2 =
        EC2Call.DescribeVolumes (describeVolumesRequest volumes) ::
          (vols.take (k + 1)).map (fun v => EC2Call.deleteVolume v.VolumeId) ∧
      (DeleteVolumes DescribeVolumes deleteVolume volumes w).2.1 =
        (deleteVolume vk.VolumeId (worldAfter deleteVolume w1 (vols.take k))).2 ∧
      (DeleteVolumes DescribeVolumes deleteVolume volumes w).2.1 =
        worldAfter deleteVolume w1 (vols.take (k + 1))) ∧
    ((∀ j v, vols[j]? = some v →
        (deleteVolume v.VolumeId (worldAfter deleteVolume w1 (vols.take j))).1 = none) →
      (DeleteVolumes DescribeVolumes deleteVolume volumes w).1 = none ∧
      (DeleteVolumes DescribeVolumes deleteVolume volumes w).2.2 =
        EC2Call.DescribeVolumes (describeVolumesRequest volumes) ::
          vols.map (fun v => EC2Call.deleteVolume v.VolumeId) ∧
      (DeleteVolumes DescribeVolumes deleteVolume volumes w).2.1 =
        worldAfter deleteVolume w1 vols) := by
  have hlen : ¬ volumes.length = 0 := fun h => hne (List.length_eq_zero.mp h)
  constructor
  · intro k vk e hk hprev hfail
    have h := deleteVolumesLoop_first_failure deleteVolume vols w1 k vk e hk hprev hfail
    simp only [DeleteVolumes, if_neg hlen, hdesc, h]
    refine ⟨trivial, trivial, trivial, ?_⟩
    rw [List.take_succ, hk]
    simp [worldAfter, List.foldl_append]
  · intro hall
    have h := deleteVolumesLoop_all_succeed deleteVolume vols w1 hall
    simp only [DeleteVolumes, if_neg hlen, hdesc, h]
    exact ⟨trivial, trivial, trivial⟩

/-- Witness of C6: three eligible volumes and a strategy failing on its
second invocation; the third volume is never attempted, and the world has
seen two invocations. -/
theorem DeleteVolumes_stops_at_first_error_witness :
    (DeleteVolumes sampleVolumes failSecond [utf8 "vol-a", utf8 "vol-b", utf8 "vol-c"] 0).1 =
      some ⟨utf8 "VolumeInUse"⟩ ∧
    (DeleteVolumes sampleVolumes failSecond [utf8 "vol-a", utf8 "vol-b", utf8 "vol-c"] 0).2.2 =
      [EC2Call.DescribeVolumes
         (describeVolumesRequest [utf8 "vol-a", utf8 "vol-b", utf8 "vol-c"]),
       EC2Call.deleteVolume (utf8 "vol-a"), EC2Call.deleteVolume (utf8 "vol-b")] ∧
    (DeleteVolumes sampleVolumes failSecond [utf8 "vol-a", utf8 "vol-b", utf8 "vol-c"] 0).2.1 =
      2 :=
  have h := (DeleteVolumes_stops_at_first_error sampleVolumes failSecond
    [utf8 "vol-a", utf8 "vol-b", utf8 "vol-c"] 0 0
    [⟨utf8 "vol-a"⟩, ⟨utf8 "vol-b"⟩, ⟨utf8 "vol-c"⟩] (by decide) rfl).1 1 ⟨utf8 "vol-b"⟩
    ⟨utf8 "VolumeInUse"⟩ rfl
    (fun j v hj hv => by
      obtain rfl : j = 0 := by omega
      rfl)
    rfl
  ⟨h.1, h.2.1, h.2.2.1⟩

/-! ### DeleteVMsInVPC -/

/-- Claim C7, amended: when the listing succeeds with at least one instance,
every listed instance has an instance ID and every block-device mapping an
`Ebs` element, and the terminate call succeeds, `DeleteVMsInVPC` issues
exactly one terminate call, for the IDs of all listed instances in listing
order, leaves the world as that call left it, and returns with no error the
listed instances' block-device volume IDs, concatenated in the same
order. -/
theorem DeleteVMsInVPC_terminates_once_and_returns_volumes {σ : Type}
    (DescribeInstances : DescribeInstancesInput → σ → Except GoError DescribeInstancesOutput × σ)
    (TerminateInstances : TerminateInstancesInput → σ → Option GoError × σ)
    (vpcID : GoString) (w w1 : σ) (resp : DescribeInstancesOutput)
    (hlist : DescribeInstances (describeInstancesRequest vpcID) w = (.ok resp, w1))
    (hsome : listedInstances resp ≠ [])
    (hpop : ∀ inst ∈ listedInstances resp, inst.Populated)
    (hterm : (TerminateInstances
      { InstanceIds := (listedInstances resp).map (fun inst => inst.InstanceId) } w1).1 = none) :
    DeleteVMsInVPC DescribeInstances TerminateInstances vpcID w =
      (.ret (some ((listedInstances resp).flatMap mappedVolumes), none),
       (TerminateInstances
         { InstanceIds := (listedInstances resp).map (fun inst => inst.InstanceId) } w1).2,
       [EC2Call.DescribeInstances (describeInstancesRequest vpcID),
        EC2Call.TerminateInstances
          { InstanceIds := (listedInstances resp).map (fun inst => inst.InstanceId) }]) := by
  simp only [DeleteVMsInVPC, hlist, collectInstances_eq resp hpop]
  have hlen : ¬ ((listedInstances resp).map (fun inst => inst.InstanceId)).length = 0 := by
    simpa using hsome
  rw [if_neg hlen]
  split
  · next err w2 heq => simp [heq] at hterm
  · next w2 heq => simp [heq]

/-- Witness of C7: three instances in two reservations, over a counter of
terminate calls. -/
theorem DeleteVMsInVPC_terminates_once_and_returns_volumes_witness :
    DeleteVMsInVPC (fun _ n => (.ok sampleListing, n)) countingTerminate (utf8 "vpc-1") 0 =
      (.ret (some [some (utf8 "vol-a"), some (utf8 "vol-b"), some (utf8 "vol-c")], none), 1,
       [EC2Call.DescribeInstances (describeInstancesRequest (utf8 "vpc-1")),
        EC2Call.TerminateInstances
          { InstanceIds := [some (utf8 "i-1"), some (utf8 "i-2"), some (utf8 "i-3")] }]) :=
  DeleteVMsInVPC_terminates_once_and_returns_volumes (fun _ n => (.ok sampleListing, n))
    countingTerminate (utf8 "vpc-1") 0 0 sampleListing rfl (by decide) (by decide) rfl

/-- Counterexample to C7 as stated: the listing succeeds with one instance
and the terminate call would succeed, but a block-device mapping has no
`Ebs` element; `DeleteVMsInVPC` panics and issues no terminate call. The
same happens when the instance has no instance ID. -/
theorem DeleteVMsInVPC_panics_without_ebs :
    listedInstances listingWithoutEbs ≠ [] ∧
    countingTerminate
      { InstanceIds := (listedInstances listingWithoutEbs).map (fun inst => inst.InstanceId) }
      0 = (none, 1) ∧
    DeleteVMsInVPC (fun _ n => (.ok listingWithoutEbs, n)) countingTerminate (utf8 "vpc-1") 0 =
      (.panic "runtime error: invalid memory address or nil pointer dereference", 0,
       [EC2Call.DescribeInstances (describeInstancesRequest (utf8 "vpc-1"))]) ∧
    listedInstances listingWithoutInstanceId ≠ [] ∧
    DeleteVMsInVPC (fun _ n => (.ok listingWithoutInstanceId, n)) countingTerminate
        (utf8 "vpc-1") 0 =
      (.panic "runtime error: invalid memory address or nil pointer dereference", 0,
       [EC2Call.DescribeInstances (describeInstancesRequest (utf8 "vpc-1"))]) :=
  ⟨by decide, rfl, rfl, by decide, rfl⟩

/-- Claim C10: when the listing succeeds and holds no instance,
`DeleteVMsInVPC` returns a nil (empty) volume-ID list and no error, issues
no terminate call and leaves the world as the listing left it. -/
theorem DeleteVMsInVPC_no_instances {σ : Type}
    (DescribeInstances : DescribeInstancesInput → σ → Except GoError DescribeInstancesOutput × σ)
    (TerminateInstances : TerminateInstancesInput → σ → Option GoError × σ)
    (vpcID : GoString) (w w1 : σ) (resp : DescribeInstancesOutput)
    (hlist : DescribeInstances (describeInstancesRequest vpcID) w = (.ok resp, w1))
    (hnone : listedInstances resp = []) :
    (DeleteVMsInVPC DescribeInstances TerminateInstances vpcID w).1 = .ret (none, none) ∧
    elems (none : Option (List (Option GoString))) = [] ∧
    (∀ input, EC2Call.TerminateInstances input ∉
      (DeleteVMsInVPC DescribeInstances TerminateInstances vpcID w).2.2) ∧
    (DeleteVMsInVPC DescribeInstances TerminateInstances vpcID w).2.1 = w1 := by
  have hpop : ∀ inst ∈ listedInstances resp, inst.Populated := by
    rw [hnone]; intro inst h; simp at h
  simp [DeleteVMsInVPC, hlist, collectInstances_eq resp hpop, hnone, elems]

/-- Witness of C10: a reservation without instances. -/
theorem DeleteVMsInVPC_no_instances_witness :
    listedInstances emptyListing = [] ∧
    (DeleteVMsInVPC (fun _ w => (.ok emptyListing, w))
      (fun _ w => (some ⟨utf8 "unreachable"⟩, w)) (utf8 "vpc-1") ()).1 = .ret (none, none) ∧
    (DeleteVMsInVPC (fun _ w => (.ok emptyListing, w))
      (fun _ w => (some ⟨utf8 "unreachable"⟩, w)) (utf8 "vpc-1") ()).2.1 = () :=
  ⟨rfl,
    (DeleteVMsInVPC_no_instances (fun _ w => (.ok emptyListing, w))
      (fun _ w => (some ⟨utf8 "unreachable"⟩, w)) (utf8 "vpc-1") () () emptyListing rfl rfl).1,
    (DeleteVMsInVPC_no_instances (fun _ w => (.ok emptyListing, w))
      (fun _ w => (some ⟨utf8 "unreachable"⟩, w)) (utf8 "vpc-1") () () emptyListing rfl rfl).2.2.2⟩

/-! ### FindLongestMatchingHostedZone -/

/-- Claim C2, amended: whenever some zone of a successfully listed catalog
matches the subdomain with a non-empty trimmed name,
`FindLongestMatchingHostedZone` succeeds and returns the trimmed name of a
matching zone that is at least as long as the trimmed name of every matching
zone. -/
theorem FindLongestMatchingHostedZone_longest (pages : List ListHostedZonesOutput)
    (subdomain : GoString)
    (hmatch : ∃ z ∈ catalog pages, ZoneMatches subdomain z ∧ TrimRightDots z.Name ≠ []) :
    (FindLongestMatchingHostedZone pages none subdomain).2.2 = none ∧
    ∃ z ∈ catalog pages, ZoneMatches subdomain z ∧
      (FindLongestMatchingHostedZone pages none subdomain).1 = TrimRightDots z.Name ∧
      ∀ u ∈ catalog pages, ZoneMatches subdomain u →
        (TrimRightDots u.Name).length ≤
          (FindLongestMatchingHostedZone pages none subdomain).1.length := by
  have hne : (longestMatchLoop subdomain ([], []) (catalog pages)).1 ≠ [] := fun he =>
    (longestMatchLoop_empty_iff subdomain (catalog pages)).mp he hmatch
  obtain ⟨h1, _, h3⟩ := longestMatchLoop_spec subdomain (catalog pages) ([], [])
  simp only [FindLongestMatchingHostedZone, ListHostedZones_ok, elems, if_neg hne]
  refine ⟨trivial, ?_⟩
  rcases h1 with h | ⟨z, hz, hm, h⟩
  · exact absurd (by rw [h]) hne
  · exact ⟨z, hz, hm, by rw [h], h3⟩


/-- Witness of C2: `example.com.` matches `foo.example.com` with a non-empty
name, and the resolution succeeds. -/
theorem FindLongestMatchingHostedZone_longest_witness :
    (FindLongestMatchingHostedZone samplePages none (utf8 "foo.example.com")).2.2 = none ∧
    ∃ z ∈ catalog samplePages, ZoneMatches (utf8 "foo.example.com") z ∧
      (FindLongestMatchingHostedZone samplePages none (utf8 "foo.example.com")).1 =
        TrimRightDots z.Name ∧
      ∀ u ∈ catalog samplePages, ZoneMatches (utf8 "foo.example.com") u →
        (TrimRightDots u.Name).length ≤
          (FindLongestMatchingHostedZone samplePages none (utf8 "foo.example.com")).1.length :=
  FindLongestMatchingHostedZone_longest samplePages (utf8 "foo.example.com")
    ⟨⟨utf8 "example.com.", utf8 "/hostedzone/Z2"⟩, by decide, by decide, by decide⟩

/-- The spec's example, in either catalog order: the more specific zone
wins, and its identifier loses the `/hostedzone/` wrapper. -/
theorem FindLongestMatchingHostedZone_example :
    FindLongestMatchingHostedZone samplePages none (utf8 "foo.example.com") =
      (utf8 "example.com", utf8 "Z2", none) ∧
    FindLongestMatchingHostedZone samplePagesReversed none (utf8 "foo.example.com") =
      (utf8 "example.com", utf8 "Z2", none) := by
  decide

/-- Counterexample to C2 as stated: the zone named `.` matches every
subdomain (its trimmed name is empty), yet the resolution fails. -/
theorem FindLongestMatchingHostedZone_root_zone_fails :
    (∃ z ∈ catalog [ { HostedZones := [⟨utf8 ".", utf8 "/hostedzone/Z0"⟩] } ],
      ZoneMatches (utf8 "foo.example.com") z) ∧
    (FindLongestMatchingHostedZone [ { HostedZones := [⟨utf8 ".", utf8 "/hostedzone/Z0"⟩] } ]
      none (utf8 "foo.example.com")).2.2 ≠ none :=
  ⟨⟨⟨utf8 ".", utf8 "/hostedzone/Z0"⟩, by decide, by decide⟩, by decide⟩

/-- Claim C8, amended: for a successfully listed catalog,
`FindLongestMatchingHostedZone` returns an error exactly when no zone with a
non-empty trimmed name matches the subdomain, and then both the returned
name and the returned identifier are empty. -/
theorem FindLongestMatchingHostedZone_error_iff (pages : List ListHostedZonesOutput)
    (subdomain : GoString) :
    ((FindLongestMatchingHostedZone pages none subdomain).2.2 ≠ none ↔
      ¬ ∃ z ∈ catalog pages, ZoneMatches subdomain z ∧ TrimRightDots z.Name ≠ []) ∧
    ((FindLongestMatchingHostedZone pages none subdomain).2.2 ≠ none →
      (FindLongestMatchingHostedZone pages none subdomain).1 = [] ∧
      (FindLongestMatchingHostedZone pages none subdomain).2.1 = []) := by
  have hiff := longestMatchLoop_empty_iff subdomain (catalog pages)
  simp only [FindLongestMatchingHostedZone, ListHostedZones_ok, elems]
  by_cases he : (longestMatchLoop subdomain ([], []) (catalog pages)).1 = []
  · simp only [if_pos he]
    exact ⟨⟨fun _ => hiff.mp he, fun _ => by simp⟩, fun _ => by simp⟩
  · simp only [if_neg he]
    exact ⟨⟨fun h => absurd rfl h, fun h => absurd (hiff.mpr h) he⟩, fun h => absurd rfl h⟩


/-- The spec's example: no zone of the catalog owns `foo.org`. -/
theorem FindLongestMatchingHostedZone_no_match_example :
    FindLongestMatchingHostedZone samplePages none (utf8 "foo.org") =
      ([], [], some ⟨utf8 "No matching hosted zone found for domain foo.org"⟩) := by
  decide

/-- Counterexample to C8 as stated: with the zone `.` added to the catalog a
zone matches `foo.org`, and the resolution still returns an error. -/
theorem FindLongestMatchingHostedZone_error_despite_match :
    ¬ ((FindLongestMatchingHostedZone
          ({ HostedZones := [⟨utf8 ".", utf8 "/hostedzone/Z0"⟩] } :: samplePages) none
          (utf8 "foo.org")).2.2 ≠ none ↔
        ¬ ∃ z ∈ catalog ({ HostedZones := [⟨utf8 ".", utf8 "/hostedzone/Z0"⟩] } :: samplePages),
          ZoneMatches (utf8 "foo.org") z) := by
  intro h
  exact h.mp (by decide) ⟨⟨utf8 ".", utf8 "/hostedzone/Z0"⟩, by decide, by decide⟩

/-! ### Delete -/

/-- Claim C5: if the outputs lookup of `DirectorPublicIP` fails, `Delete`
returns an error and that lookup is the only call it makes: neither
`RunAuthenticatedCommand` nor `DeleteEnv` is invoked and no later lookup is
performed. -/
theorem Delete_aborts_when_director_lookup_fails {σ : Type} (net : NetLib)
    (c : Collaborators σ) (config : Config) (stateFileBytes : Bytes) (w : σ) (err : GoError)
    (hfail : (c.outputsGet (utf8 "DirectorPublicIP") w).1 = .error err) :
    (runDelete net c config stateFileBytes w).1.2 =
      some ⟨utf8 "failed to retrieve director IP: [" ++ err.msg ++ utf8 "]"⟩ ∧
    (runDelete net c config stateFileBytes w).2.log = [Call.outputsGet (utf8 "DirectorPublicIP")] ∧
    (∀ call ∈ (runDelete net c config stateFileBytes w).2.log, call.destructive = false) ∧
    (runDelete net c config stateFileBytes w).2.world =
      (c.outputsGet (utf8 "DirectorPublicIP") w).2 := by
  simp [runDelete, Delete, getOutput, hfail, Call.destructive]


/-- Witness of C5: with the outputs store down, `Delete` stops after the
first lookup. -/
theorem Delete_aborts_when_director_lookup_fails_witness :
    (runDelete net4 outputsDown sampleConfig (some (utf8 "state")) ()).1.2 =
      some ⟨utf8 "failed to retrieve director IP: [key not found]"⟩ ∧
    (runDelete net4 outputsDown sampleConfig (some (utf8 "state")) ()).2.log =
      [Call.outputsGet (utf8 "DirectorPublicIP")] :=
  ⟨(Delete_aborts_when_director_lookup_fails net4 outputsDown sampleConfig
      (some (utf8 "state")) () ⟨utf8 "key not found"⟩ rfl).1,
   (Delete_aborts_when_director_lookup_fails net4 outputsDown sampleConfig
      (some (utf8 "state")) () ⟨utf8 "key not found"⟩ rfl).2.1⟩

/-- Claim C3: if the public CIDR parses to a range with base address `B`
holding more than 6 addresses, every descriptor `Delete` passes to
`DeleteEnv` has `InternalGW` the textual form of `B + 1` and `InternalIP`
the textual form of `B + 6`, whatever the collaborators answer; if the CIDR
does not parse, or the range holds at most 6 addresses, `Delete` returns an
error and `DeleteEnv` is never invoked; and if the CIDR parses to a range
of more than 6 addresses and the lookups and the delete-deployment command
succeed, `Delete` does reach `DeleteEnv`: it makes exactly the nine calls of
the source in their order, the last being `DeleteEnv` on the store holding
`stateFileBytes` and the descriptor with those two addresses, and returns
what that call left and returned. -/
theorem Delete_internal_addresses {σ : Type} (net : NetLib)
    (c : Collaborators σ) (config : Config) (stateFileBytes : Bytes) (w : σ) :
    (∀ pubCIDR, net.ParseCIDR config.PublicCIDR = .ok pubCIDR → 6 < rangeSize pubCIDR →
      ∀ env ∈ deleteEnvCalls (runDelete net c config stateFileBytes w).2.log,
        env.InternalGW = net.String { pubCIDR.IP with addr := pubCIDR.IP.addr + 1 } ∧
        env.InternalIP = net.String { pubCIDR.IP with addr := pubCIDR.IP.addr + 6 }) ∧
    ((∀ pubCIDR, net.ParseCIDR config.PublicCIDR = .ok pubCIDR →
        ¬ 1 < rangeSize pubCIDR ∨ ¬ 6 < rangeSize pubCIDR) →
      (runDelete net c config stateFileBytes w).1.2 ≠ none ∧
      deleteEnvCalls (runDelete net c config stateFileBytes w).2.log = []) ∧
    (∀ (pubCIDR : IPNet)
        (ip credentialsPath network publicSubnetwork privateSubnetwork project : GoString)
        (w1 w2 w3 w4 w5 w6 w7 : σ),
      net.ParseCIDR config.PublicCIDR = .ok pubCIDR → 6 < rangeSize pubCIDR →
      c.outputsGet (utf8 "DirectorPublicIP") w = (.ok ip, w1) →
      c.RunAuthenticatedCommand (utf8 "delete-deployment") ip config.DirectorPassword
        config.DirectorCACert false [utf8 "--force"] w1 = (none, w2) →
      c.providerAttr (utf8 "credentials_path") w2 = (.ok credentialsPath, w3) →
      c.outputsGet (utf8 "Network") w3 = (.ok network, w4) →
      c.outputsGet (utf8 "PublicSubnetworkName") w4 = (.ok publicSubnetwork, w5) →
      c.outputsGet (utf8 "PrivateSubnetworkName") w5 = (.ok privateSubnetwork, w6) →
      c.providerAttr (utf8 "project") w6 = (.ok project, w7) →
      ∃ env : Environment,
        env =
          { DirectorName := utf8 "bosh"
            ExternalIP := ip
            GcpCredentialsJSON := credentialsPath
            InternalCIDR := config.PublicCIDR
            InternalGW := net.String { pubCIDR.IP with addr := pubCIDR.IP.addr + 1 }
            InternalIP := net.String { pubCIDR.IP with addr := pubCIDR.IP.addr + 6 }
            Network := network
            PrivateSubnetwork := privateSubnetwork
            ProjectID := project
            PublicKey := config.PublicKey
            PublicSubnetwork := publicSubnetwork
            Spot := config.Spot
            Zone := (c.providerZone [] [] w7).1 } ∧
        (runDelete net c config stateFileBytes w).2.log =
          [Call.outputsGet (utf8 "DirectorPublicIP"),
           Call.RunAuthenticatedCommand (utf8 "delete-deployment") ip config.DirectorPassword
             config.DirectorCACert false [utf8 "--force"],
           Call.providerAttr (utf8 "credentials_path"),
           Call.outputsGet (utf8 "Network"),
           Call.outputsGet (utf8 "PublicSubnetworkName"),
           Call.outputsGet (utf8 "PrivateSubnetworkName"),
           Call.providerAttr (utf8 "project"),
           Call.providerZone [] [],
           Call.DeleteEnv [(utf8 "state.json", stateFileBytes)] env config.DirectorPassword
             config.DirectorCert config.DirectorKey config.DirectorCACert] ∧
        (runDelete net c config stateFileBytes w).1 =
          (temporaryStore.index
            (c.DeleteEnv [(utf8 "state.json", stateFileBytes)] env config.DirectorPassword
              config.DirectorCert config.DirectorKey config.DirectorCACert
              (c.providerZone [] [] w7).2).1.1 (utf8 "state.json"),
           (c.DeleteEnv [(utf8 "state.json", stateFileBytes)] env config.DirectorPassword
              config.DirectorCert config.DirectorKey config.DirectorCACert
              (c.providerZone [] [] w7).2).1.2) ∧
        (runDelete net c config stateFileBytes w).2.world =
          (c.DeleteEnv [(utf8 "state.json", stateFileBytes)] env config.DirectorPassword
            config.DirectorCert config.DirectorKey config.DirectorCACert
            (c.providerZone [] [] w7).2).2) := by
  refine ⟨?_, ?_, ?_⟩
  · intro pubCIDR hp h6 env henv
    have h1 : 1 < rangeSize pubCIDR := by omega
    simp only [runDelete, Delete, hp, cidrHost, h1, h6, if_true] at henv
    simp only [getOutput, getAttr, getZone, runAuthenticated, runDeleteEnv] at henv
    repeat' split at henv
    all_goals simp only [Prod.mk.injEq] at *
    all_goals casesm* _ ∧ _
    all_goals subst_vars
    all_goals simp [deleteEnvCalls_append, deleteEnvCalls] at henv
    all_goals subst henv
    all_goals exact ⟨rfl, rfl⟩
  · intro hsmall
    cases hp : net.ParseCIDR config.PublicCIDR with
    | error e =>
      simp only [runDelete, Delete, hp]
      simp only [getOutput, runAuthenticated]
      repeat' split
      all_goals simp only [Prod.mk.injEq] at *
      all_goals casesm* _ ∧ _
      all_goals subst_vars
      all_goals simp [deleteEnvCalls]
    | ok pubCIDR =>
      have h6 : ¬ 6 < rangeSize pubCIDR := by
        rcases hsmall pubCIDR hp with h | h <;> omega
      simp only [runDelete, Delete, hp, cidrHost, h6, if_false]
      simp only [getOutput, runAuthenticated]
      repeat' split
      all_goals simp only [Prod.mk.injEq] at *
      all_goals casesm* _ ∧ _
      all_goals subst_vars
      all_goals simp [deleteEnvCalls]
  · intro pubCIDR ip credentialsPath network publicSubnetwork privateSubnetwork project
      w1 w2 w3 w4 w5 w6 w7 hp h6 hg hr ha hn hpu hpr hpj
    have h1 : 1 < rangeSize pubCIDR := by omega
    refine ⟨_, rfl, ?_, ?_, ?_⟩
    all_goals simp [runDelete, Delete, getOutput, getAttr, getZone, runAuthenticated,
      runDeleteEnv, hp, cidrHost, h1, h6, hg, hr, ha, hn, hpu, hpr, hpj]

/-- Witness of C3: for `10.0.0.0/24` and healthy collaborators the public
range parses, holds 256 addresses, every lookup succeeds, and `DeleteEnv` is
invoked once, with gateway `10.0.0.1` and internal address `10.0.0.6`. -/
theorem Delete_internal_addresses_witness :
    net4.ParseCIDR sampleConfig.PublicCIDR = .ok ⟨⟨167772160, 4⟩, 24⟩ ∧
    6 < rangeSize ⟨⟨167772160, 4⟩, 24⟩ ∧
    ∃ env : Environment,
      deleteEnvCalls (runDelete net4 healthy sampleConfig (some (utf8 "state")) ()).2.log =
        [env] ∧
      env.InternalGW = utf8 "10.0.0.1" ∧ env.InternalIP = utf8 "10.0.0.6" ∧
      (runDelete net4 healthy sampleConfig (some (utf8 "state")) ()).1 =
        (some (utf8 "state"), none) := by
  obtain ⟨env, henv, hlog, hres, _⟩ :=
    (Delete_internal_addresses net4 healthy sampleConfig (some (utf8 "state")) ()).2.2
      ⟨⟨167772160, 4⟩, 24⟩ (utf8 "out-DirectorPublicIP") (utf8 "attr-credentials_path")
      (utf8 "out-Network") (utf8 "out-PublicSubnetworkName") (utf8 "out-PrivateSubnetworkName")
      (utf8 "attr-project") () () () () () () () rfl (by decide) rfl rfl rfl rfl rfl rfl rfl
  refine ⟨rfl, by decide, env, ?_, ?_, ?_, ?_⟩
  · rw [hlog]; rfl
  · rw [henv]; decide
  · rw [henv]; decide
  · rw [hres]; rfl

/-- A range of four addresses has no offset 6: `Delete` fails after the
deployment removal and never reaches `DeleteEnv`. -/
theorem Delete_small_range_example :
    (runDelete net4 healthy { sampleConfig with PublicCIDR := utf8 "10.0.0.0/30" }
      (some (utf8 "state")) ()).1 = (some (utf8 "state"), some ⟨utf8 "InvalidNetworkInput"⟩) ∧
    deleteEnvCalls (runDelete net4 healthy { sampleConfig with PublicCIDR := utf8 "10.0.0.0/30" }
      (some (utf8 "state")) ()).2.log = [] := by
  decide

/-- Claim C4, amended: `Delete` returns a nil blob with the error when the
`DirectorPublicIP` lookup or the delete-deployment command fails; after
both have succeeded, every error comes with the `state.json` entry of the
store, which is the given `stateFileBytes` when `DeleteEnv` was not reached
and the entry as `DeleteEnv` left it otherwise. -/
theorem Delete_error_blob {σ : Type} (net : NetLib)
    (c : Collaborators σ) (config : Config) (stateFileBytes : Bytes) (w : σ) :
    (∃ e, (c.outputsGet (utf8 "DirectorPublicIP") w).1 = .error e ∧
      (runDelete net c config stateFileBytes w).1 =
        (none, some ⟨utf8 "failed to retrieve director IP: [" ++ e.msg ++ utf8 "]"⟩)) ∨
    (∃ ip e, (c.outputsGet (utf8 "DirectorPublicIP") w).1 = .ok ip ∧
      (c.RunAuthenticatedCommand (utf8 "delete-deployment") ip config.DirectorPassword
        config.DirectorCACert false [utf8 "--force"]
        (c.outputsGet (utf8 "DirectorPublicIP") w).2).1 = some e ∧
      (runDelete net c config stateFileBytes w).1 = (none, some e)) ∨
    (∃ ip e, (c.outputsGet (utf8 "DirectorPublicIP") w).1 = .ok ip ∧
      (c.RunAuthenticatedCommand (utf8 "delete-deployment") ip config.DirectorPassword
        config.DirectorCACert false [utf8 "--force"]
        (c.outputsGet (utf8 "DirectorPublicIP") w).2).1 = none ∧
      deleteEnvCalls (runDelete net c config stateFileBytes w).2.log = [] ∧
      (runDelete net c config stateFileBytes w).1 = (stateFileBytes, some e)) ∨
    (∃ ip env w1, (c.outputsGet (utf8 "DirectorPublicIP") w).1 = .ok ip ∧
      (c.RunAuthenticatedCommand (utf8 "delete-deployment") ip config.DirectorPassword
        config.DirectorCACert false [utf8 "--force"]
        (c.outputsGet (utf8 "DirectorPublicIP") w).2).1 = none ∧
      deleteEnvCalls (runDelete net c config stateFileBytes w).2.log = [env] ∧
      (runDelete net c config stateFileBytes w).1 =
        (temporaryStore.index
          (c.DeleteEnv [(utf8 "state.json", stateFileBytes)] env config.DirectorPassword
            config.DirectorCert config.DirectorKey config.DirectorCACert w1).1.1
          (utf8 "state.json"),
         (c.DeleteEnv [(utf8 "state.json", stateFileBytes)] env config.DirectorPassword
            config.DirectorCert config.DirectorKey config.DirectorCACert w1).1.2)) := by
  simp only [runDelete, Delete]
  simp only [getOutput, getAttr, getZone, runAuthenticated, runDeleteEnv]
  repeat' split
  all_goals simp only [Prod.mk.injEq] at *
  all_goals casesm* _ ∧ _
  all_goals subst_vars
  all_goals simp_all [deleteEnvCalls_append, deleteEnvCalls, index_singleton]
  exact ⟨_, rfl, rfl⟩

/-- Counterexample to C4 as stated: with the outputs store down, `Delete`
returns an error together with a nil blob, although it was given a non-nil
state blob. -/
theorem Delete_early_failure_returns_nil_blob :
    (runDelete net4 outputsDown sampleConfig (some (utf8 "state")) ()).1.2 ≠ none ∧
    (runDelete net4 outputsDown sampleConfig (some (utf8 "state")) ()).1.1 = none ∧
    temporaryStore.index [(utf8 "state.json", some (utf8 "state"))] (utf8 "state.json") ≠
      none := by
  decide

/-- A failing `DeleteEnv` that rewrote the state entry: `Delete` hands back
the rewritten entry with the error. -/
theorem Delete_failing_DeleteEnv_example :
    (runDelete net4 deleteEnvFails sampleConfig (some (utf8 "state")) ()).1 =
      (some (utf8 "partial"), some ⟨utf8 "delete-env failed"⟩) := by
  decide

end ControlTower
